import Mathlib

/-
Verification development for the zoinks market-correlation bot
(src/bot.py, src/config.py).

Shallow embedding conventions:
* Tweet texts are lists of characters (`List Char`).
* Python floats are idealised as rationals (`ℚ`); `float('...')` parsing,
  `:.2f` / `:,.2f` formatting and the 0.01 threshold are modelled exactly
  over ℚ.
* `datetime` values are a record of calendar fields; subtraction of two
  datetimes is modelled through `toEpochSec` (proleptic Gregorian ordinal,
  exactly Python's `datetime.toordinal` arithmetic).
* Code that can raise an exception which escapes the function is modelled
  with `Except Unit`; code that catches all exceptions internally and
  returns a default is modelled as a total function.
* The nondeterministic outside world (HTTP responses, the Claude endpoint,
  the browser) is passed in as explicit oracle arguments, one outcome per
  attempt, mirroring the fault-injection style of the spec's §8.
-/

namespace Zoinks

/-- Decidable equality for `Except`, used to evaluate the duplicate check
(which models an escaping exception) on concrete inputs. -/
instance {ε α : Type} [DecidableEq ε] [DecidableEq α] :
    DecidableEq (Except ε α) := fun a b =>
  match a, b with
  | .ok x, .ok y =>
    if h : x = y then isTrue (by rw [h]) else isFalse (by simp [h])
  | .error x, .error y =>
    if h : x = y then isTrue (by rw [h]) else isFalse (by simp [h])
  | .ok _, .error _ => isFalse (by simp)
  | .error _, .ok _ => isFalse (by simp)

/-- Character class `[0-9,.]` of the price-capture groups in
`_extract_price_data` (src/bot.py lines 99-100). -/
def isPriceChar (c : Char) : Bool :=
  c.isDigit || c = ',' || c = '.'

/-- Character class `[\d-]` (date half of the timestamp capture group,
src/bot.py line 98). -/
def isTsDateChar (c : Char) : Bool :=
  c.isDigit || c = '-'

/-- Character class `[\d:]` (time half of the timestamp capture group,
src/bot.py line 98). -/
def isTsTimeChar (c : Char) : Bool :=
  c.isDigit || c = ':'

/-- ASCII whitespace as matched by a regex `\s` in Python (used by
`strptime` for the blank inside the format `'%Y-%m-%d %H:%M:%S'`). -/
def isPySpace (c : Char) : Bool :=
  c = ' ' || c = '\t' || c = '\n' || c = '\r' || c = '\x0b' || c = '\x0c'

/-- If `lit` is a prefix of `cs`, return the rest of `cs`; otherwise `none`.
Used to match the literal part of a regex at one start position. -/
def dropLit : List Char → List Char → Option (List Char)
  | [], cs => some cs
  | _ :: _, [] => none
  | l :: ls, c :: cs => if l = c then dropLit ls cs else none

/-- `re.search(lit ++ "([0-9,.]+)", tweet)`: scan start positions left to
right; at the first position where the literal matches and is followed by at
least one `[0-9,.]` character, return the maximal such run (the capture
group).  Models the BTC/ETH price searches of src/bot.py lines 99-100. -/
def searchPrice (lit : List Char) : List Char → Option (List Char)
  | [] => none
  | c :: cs =>
    match dropLit lit (c :: cs) with
    | some rest =>
      let grp := rest.takeWhile isPriceChar
      if grp.isEmpty then searchPrice lit cs else some grp
    | none => searchPrice lit cs

/-- `re.search(r'Analysis - ([\d-]+ [\d:]+)', tweet)` (src/bot.py line 98):
at each start position the literal `"Analysis - "` must match, followed by a
nonempty maximal `[\d-]` run, a single blank, and a nonempty maximal `[\d:]`
run; the capture group is the whole `run1 ++ " " ++ run2`.  (Greedy matching
with this pattern cannot stop a run early, because the runs' character
classes exclude the blank that must follow them.) -/
def searchTs : List Char → Option (List Char)
  | [] => none
  | c :: cs =>
    match dropLit ("Analysis - ".toList) (c :: cs) with
    | some rest =>
      let r1 := rest.takeWhile isTsDateChar
      let rest2 := rest.dropWhile isTsDateChar
      if r1.isEmpty then searchTs cs
      else
        match rest2 with
        | ' ' :: rest3 =>
          let r2 := rest3.takeWhile isTsTimeChar
          if r2.isEmpty then searchTs cs else some (r1 ++ ' ' :: r2)
        | _ => searchTs cs
    | none => searchTs cs

/-- `.replace(',', '')` on a captured price group (src/bot.py 104-105). -/
def removeCommas (cs : List Char) : List Char :=
  cs.filter (fun c => c ≠ ',')

/-- Value of a list of decimal digit characters (most significant first). -/
def digitsToNat (cs : List Char) : ℕ :=
  cs.foldl (fun n c => 10 * n + (c.toNat - 48)) 0

/-- Python `float(s)` restricted to the strings made of `[0-9.]` characters
that arise from a price capture group after comma removal: it succeeds
exactly when there is at most one dot and at least one digit (so `""`, `"."`
and `"1.2.3"` raise `ValueError`, while `"5."` and `".5"` parse). -/
def parsePyFloat (cs : List Char) : Option ℚ :=
  if cs.all (fun c => c.isDigit || c = '.') ∧
      cs.count '.' ≤ 1 ∧ cs.any Char.isDigit then
    let ip := cs.takeWhile (fun c => c ≠ '.')
    let fp := (cs.dropWhile (fun c => c ≠ '.')).drop 1
    some ((digitsToNat ip : ℚ) + (digitsToNat fp : ℚ) / (10 : ℚ) ^ fp.length)
  else none

/-- A Python naive `datetime` (the fields produced by
`datetime.strptime(s, '%Y-%m-%d %H:%M:%S')`). -/
structure PyDateTime where
  year : ℕ
  month : ℕ
  day : ℕ
  hour : ℕ
  minute : ℕ
  second : ℕ
  deriving DecidableEq, Repr

/-- One one-or-two-digit strptime field: the maximal digit run at the front
must have length between 1 and `maxLen` (= 2 here).  CPython compiles
`%m`/`%d`/`%H`/`%M`/`%S` to ordered alternations such as
`1[0-2]|0[1-9]|[1-9]`; on a maximal digit run that is followed by the
format's non-digit separator, those alternations accept exactly the runs of
length 1-2 whose value passes the corresponding range check made below, so
run-plus-range-check is extensionally the same test.  (The space-padded day
alternative `" [1-9]"` cannot complete a match on the captures arising
here: it would consume the capture's only blank, which the format's `\s+`
still needs.) -/
def grabDigits (maxLen : ℕ) (cs : List Char) : Option (ℕ × List Char) :=
  let run := cs.takeWhile Char.isDigit
  if run.length = 0 ∨ maxLen < run.length then none
  else some (digitsToNat run, cs.dropWhile Char.isDigit)

/-- The year field of CPython's `%Y`: exactly four digits (`\d\d\d\d`).
The maximal digit run at the front must have length exactly 4 — a shorter
run cannot supply four digits, and with a longer run the character after
the four consumed digits is a digit and cannot be the format's literal
`'-'`.  In particular a 1-3-digit year such as `"224-01-01 00:00:00"` is a
`ValueError` in CPython and `none` here. -/
def grabYear (cs : List Char) : Option (ℕ × List Char) :=
  let run := cs.takeWhile Char.isDigit
  if run.length = 4 then some (digitsToNat run, cs.dropWhile Char.isDigit)
  else none

/-- Gregorian leap year, as Python's `calendar.isleap`. -/
def isLeapYear (y : ℕ) : Bool :=
  (y % 4 = 0 && y % 100 ≠ 0) || y % 400 = 0

/-- Days in a month, as Python's `datetime` validation uses. -/
def daysInMonth (y m : ℕ) : ℕ :=
  if m = 2 then (if isLeapYear y then 29 else 28)
  else if m = 4 ∨ m = 6 ∨ m = 9 ∨ m = 11 then 30
  else 31

/-- `datetime.strptime(s, '%Y-%m-%d %H:%M:%S')` returning `none` where
Python raises `ValueError`: CPython's compiled format regex — an exactly
four-digit `%Y`, literal `'-'`, one-or-two-digit month/day fields, `\s+`
for the blank, and one-or-two-digit hour/minute/second fields — must match
at the start and consume the whole string, and the six fields must form a
valid `datetime` (year ≥ 1, month 1-12, day within the month, hour ≤ 23,
minute ≤ 59, second ≤ 59; the constructor also rejects the leap seconds
60-61 that `%S` alone would admit). -/
def strptimeYmdHms (cs : List Char) : Option PyDateTime :=
  match grabYear cs with
  | none => none
  | some (y, r1) =>
    match r1 with
    | '-' :: r2 =>
      match grabDigits 2 r2 with
      | none => none
      | some (mo, r3) =>
        match r3 with
        | '-' :: r4 =>
          match grabDigits 2 r4 with
          | none => none
          | some (d, r5) =>
            match r5 with
            | c :: r6 =>
              if isPySpace c then
                let r7 := r6.dropWhile isPySpace
                match grabDigits 2 r7 with
                | none => none
                | some (h, r8) =>
                  match r8 with
                  | ':' :: r9 =>
                    match grabDigits 2 r9 with
                    | none => none
                    | some (mi, r10) =>
                      match r10 with
                      | ':' :: r11 =>
                        match grabDigits 2 r11 with
                        | none => none
                        | some (s, r12) =>
                          if r12 = [] ∧ 1 ≤ y ∧ 1 ≤ mo ∧ mo ≤ 12 ∧
                              1 ≤ d ∧ d ≤ daysInMonth y mo ∧
                              h ≤ 23 ∧ mi ≤ 59 ∧ s ≤ 59 then
                            some ⟨y, mo, d, h, mi, s⟩
                          else none
                      | _ => none
                  | _ => none
              else none
            | [] => none
        | _ => none
    | _ => none

/-- Days strictly before January 1 of year `y` in the proleptic Gregorian
calendar (Python's `datetime._days_before_year`). -/
def daysBeforeYear (y : ℕ) : ℕ :=
  365 * (y - 1) + (y - 1) / 4 + (y - 1) / 400 - (y - 1) / 100

/-- Days in year `y` strictly before month `m`. -/
def daysBeforeMonth (y m : ℕ) : ℕ :=
  ((List.range (m - 1)).map (fun i => daysInMonth y (i + 1))).sum

/-- Python's `datetime.toordinal`. -/
def toOrdinal (t : PyDateTime) : ℕ :=
  daysBeforeYear t.year + daysBeforeMonth t.year t.month + t.day

/-- Seconds of `t` counted from the calendar origin; the difference of two
values is exactly `(t1 - t2).total_seconds()` for naive datetimes. -/
def toEpochSec (t : PyDateTime) : ℕ :=
  toOrdinal t * 86400 + t.hour * 3600 + t.minute * 60 + t.second

/-- The literal part of the BTC price pattern `r'BTC: \\$([0-9,.]+)'`. -/
def btcLit : List Char := "BTC: $".toList

/-- The literal part of the ETH price pattern `r'ETH: \\$([0-9,.]+)'`. -/
def ethLit : List Char := "ETH: $".toList

/-- The dictionary `_extract_price_data` builds: both prices, and the
timestamp when the timestamp pattern matched. -/
structure ExtractedData where
  btc : ℚ
  eth : ℚ
  timestamp : Option PyDateTime
  deriving DecidableEq, Repr

/-- `_extract_price_data` (src/bot.py lines 94-112).  `none` models the
empty dictionary `{}`: returned when the price pair is absent, or when any
of the `float`/`strptime` conversions raises (the function's `try/except`
catches the exception and falls through to `return {}`). -/
def extractPriceData (tweet : List Char) : Option ExtractedData :=
  let tsMatch := searchTs tweet
  let btcMatch := searchPrice btcLit tweet
  let ethMatch := searchPrice ethLit tweet
  match btcMatch, ethMatch with
  | some bs, some es =>
    match parsePyFloat (removeCommas bs), parsePyFloat (removeCommas es) with
    | some b, some e =>
      match tsMatch with
      | some ts =>
        match strptimeYmdHms ts with
        | some dt => some ⟨b, e, some dt⟩
        | none => none
      | none => some ⟨b, e, none⟩
    | _, _ => none
  | _, _ => none

/-- `MIN_CHANGE_THRESHOLD = 0.01` (src/bot.py line 130). -/
def MIN_CHANGE_THRESHOLD : ℚ := 1 / 100

/-- The history loop of `_is_duplicate_analysis` (src/bot.py lines
120-142), given the already-extracted candidate data.  `Except.error ()`
models the `ZeroDivisionError` raised by the percentage-change computation
when an extracted historical price is exactly 0 (the function has no
handler, so the exception escapes). -/
def isDuplicateAux (nd : ExtractedData) : List (List Char) → Except Unit Bool
  | [] => .ok false
  | post :: rest =>
    match extractPriceData post with
    | none => isDuplicateAux nd rest
    | some od =>
      if od.btc = 0 then .error ()
      else if od.eth = 0 then .error ()
      else
        let btcChange := |(nd.btc - od.btc) / od.btc * 100|
        let ethChange := |(nd.eth - od.eth) / od.eth * 100|
        match nd.timestamp, od.timestamp with
        | some tNew, some tOld =>
          if btcChange < MIN_CHANGE_THRESHOLD ∧ ethChange < MIN_CHANGE_THRESHOLD then
            if (toEpochSec tNew : ℤ) - (toEpochSec tOld : ℤ) < 30 then .ok true
            else isDuplicateAux nd rest
          else isDuplicateAux nd rest
        | _, _ => isDuplicateAux nd rest

/-- `_is_duplicate_analysis` (src/bot.py lines 114-142). -/
def isDuplicateAnalysis (newTweet : List Char) (lastPosts : List (List Char)) :
    Except Unit Bool :=
  match extractPriceData newTweet with
  | none => .ok false
  | some nd => isDuplicateAux nd lastPosts

/-- `HARD_STOP_LENGTH` from `TWEET_CONSTRAINTS` (src/config.py line 82). -/
def HARD_STOP_LENGTH : ℕ := 280

/-- `MIN_LENGTH` from `TWEET_CONSTRAINTS` (src/config.py line 80). -/
def MIN_LENGTH : ℕ := 220

/-- Digits of `n`, left-padded with `'0'` to width `w` (Python `%02d`-style
zero padding used by `strftime('%Y-%m-%d %H:%M:%S')`). -/
def padDigits (w n : ℕ) : List Char :=
  let ds := Nat.toDigits 10 n
  List.replicate (w - ds.length) '0' ++ ds

/-- `datetime.now().strftime('%Y-%m-%d %H:%M:%S')` applied to a given
clock reading (src/bot.py line 227). -/
def strftimeYmdHms (t : PyDateTime) : List Char :=
  padDigits 4 t.year ++ '-' :: padDigits 2 t.month ++ '-' :: padDigits 2 t.day ++
    ' ' :: padDigits 2 t.hour ++ ':' :: padDigits 2 t.minute ++
    ':' :: padDigits 2 t.second

/-- Round a rational to the nearest integer, ties to even — the rounding
Python's fixed-point float formatting performs. -/
def roundHalfEven (x : ℚ) : ℤ :=
  let f := x.floor
  let r := x - (f : ℚ)
  if r < 1 / 2 then f
  else if 1 / 2 < r then f + 1
  else if f % 2 = 0 then f else f + 1

/-- Decimal digits of the magnitude of a 2-decimal fixed-point value,
padded so there is at least one integer digit. -/
def fixed2Digits (n : ℕ) : List Char :=
  let ds := Nat.toDigits 10 n
  if ds.length < 3 then List.replicate (3 - ds.length) '0' ++ ds else ds

/-- Group a digit list (already reversed, least significant first) in
blocks of three, for the thousands separators of `{:,.2f}`. -/
def chunk3 : List Char → List (List Char)
  | [] => []
  | [a] => [[a]]
  | [a, b] => [[a, b]]
  | a :: b :: c :: rest => [a, b, c] :: chunk3 rest

/-- Insert `','` thousands separators into an integer-part digit list. -/
def insertCommas (ds : List Char) : List Char :=
  (List.intercalate [','] (chunk3 ds.reverse)).reverse

/-- Python `f"{x:.2f}"` over the exact rational value: round half-to-even
to two decimals, keep the sign of a negative value. -/
def formatFixed2 (q : ℚ) : List Char :=
  let n := (roundHalfEven (q * 100)).natAbs
  let ds := fixed2Digits n
  let body := ds.take (ds.length - 2) ++ '.' :: ds.drop (ds.length - 2)
  if q < 0 then '-' :: body else body

/-- Python `f"{x:,.2f}"`: as `formatFixed2` but with thousands separators
in the integer part. -/
def formatCommas2 (q : ℚ) : List Char :=
  let n := (roundHalfEven (q * 100)).natAbs
  let ds := fixed2Digits n
  let body := insertCommas (ds.take (ds.length - 2)) ++
    '.' :: ds.drop (ds.length - 2)
  if q < 0 then '-' :: body else body

/-- One coin record of the CoinGecko payload, with the three numeric
fields the core reads (spec §3). -/
structure Coin where
  symbol : List Char
  current_price : ℚ
  price_change_percentage_24h : ℚ
  total_volume : ℚ
  deriving DecidableEq, Repr

/-- Python `str.split('\n')` (src/bot.py line 237): `""` yields `[""]`,
a trailing separator yields a trailing empty piece. -/
def pySplitNl : List Char → List (List Char)
  | [] => [[]]
  | c :: cs =>
    if c = '\n' then [] :: pySplitNl cs
    else
      match pySplitNl cs with
      | [] => [[c]]
      | g :: gs => (c :: g) :: gs

/-- The line-fitting loop of `_format_tweet_analysis` (src/bot.py lines
240-244): append a line (plus `"\n"`) while the base tweet, the
accumulated analysis, the line and the trailing hashtag block stay within
`HARD_STOP_LENGTH`; stop at the first line that does not fit. -/
def fitAnalysisLines (base acc : List Char) : List (List Char) → List Char
  | [] => acc
  | line :: rest =>
    if (base ++ acc ++ line ++ "\n\n#Crypto #ETH #BTC".toList).length ≤
        HARD_STOP_LENGTH then
      fitAnalysisLines base (acc ++ line ++ ['\n']) rest
    else acc

/-- The fixed header of `_format_tweet_analysis` (src/bot.py lines
230-234), rendered at clock reading `now`. -/
def baseTweet (now : PyDateTime) (btc eth : Coin) : List Char :=
  "ETH/BTC Market Analysis - ".toList ++ strftimeYmdHms now ++
    "\n\nBTC: $".toList ++ formatCommas2 btc.current_price ++
    " (".toList ++ formatFixed2 btc.price_change_percentage_24h ++
    "%)\nETH: $".toList ++ formatCommas2 eth.current_price ++
    " (".toList ++ formatFixed2 eth.price_change_percentage_24h ++
    "%)\n\n".toList

/-- `_format_tweet_analysis` (src/bot.py lines 225-252), with the
`datetime.now()` reading passed in explicitly. -/
def formatTweetAnalysis (now : PyDateTime) (analysis : List Char)
    (btc eth : Coin) : List Char :=
  let base := baseTweet now btc eth
  let formatted := fitAnalysisLines base [] (pySplitNl analysis)
  let final := base ++ formatted ++ "\n#Crypto #ETH #BTC".toList
  if final.length < MIN_LENGTH then
    final ++ "\nDetailed analysis available.".toList
  else final

/-- Outcome of one CoinGecko request attempt, as injected by the
environment: a JSON payload, a `requests.exceptions.Timeout`, a
(non-timeout) `requests.exceptions.ConnectionError`, or any other
exception such as the `HTTPError` of `raise_for_status`. -/
inductive FetchAttempt where
  | payload (coins : List Coin)
  | timeout
  | connError
  | httpError
  deriving DecidableEq, Repr

/-- ASCII lower-to-upper conversion, Python `str.upper()` on the coin
symbols (src/bot.py line 159). -/
def upperChar (c : Char) : Char :=
  if 'a' ≤ c ∧ c ≤ 'z' then Char.ofNat (c.toNat - 32) else c

/-- The `'BTC'` key of the coin dictionary. -/
def btcSym : List Char := "BTC".toList

/-- The `'ETH'` key of the coin dictionary. -/
def ethSym : List Char := "ETH".toList

/-- Lookup in the dictionary `{coin['symbol'].upper(): coin for coin in
response.json()}`: the last coin whose upper-cased symbol equals `sym`
wins, as later dict-comprehension entries overwrite earlier ones. -/
def findCoinLast (sym : List Char) (coins : List Coin) : Option Coin :=
  coins.foldl (fun acc c => if c.symbol.map upperChar = sym then some c else acc)
    none

/-- Result of running one retrying component: the returned value (`none`
models Python `None`), the number of attempts made, and the list of
back-off sleeps (seconds) in order. -/
structure RetryRun (α : Type) where
  result : Option α
  attempts : ℕ
  sleeps : List ℕ
  deriving DecidableEq, Repr

/-- The `while retry_count < max_retries` loop of `_get_crypto_data`
(src/bot.py lines 144-180): `fuel` is `max_retries - retry_count`.  A
timeout sleeps `(retry_count + 1) * 10` seconds and retries; any other
exception and a payload missing BTC or ETH return `None` immediately. -/
def getCryptoAux (oracle : ℕ → FetchAttempt) :
    ℕ → ℕ → ℕ → List ℕ → RetryRun (Coin × Coin)
  | 0, _, att, sl => ⟨none, att, sl⟩
  | fuel + 1, rc, att, sl =>
    match oracle rc with
    | .payload coins =>
      match findCoinLast btcSym coins, findCoinLast ethSym coins with
      | some b, some e => ⟨some (b, e), att + 1, sl⟩
      | _, _ => ⟨none, att + 1, sl⟩
    | .timeout => getCryptoAux oracle fuel (rc + 1) (att + 1) (sl ++ [(rc + 1) * 10])
    | .connError => ⟨none, att + 1, sl⟩
    | .httpError => ⟨none, att + 1, sl⟩

/-- `_get_crypto_data` (src/bot.py lines 144-180), `max_retries = 3`. -/
def getCryptoData (oracle : ℕ → FetchAttempt) : RetryRun (Coin × Coin) :=
  getCryptoAux oracle 3 0 0 []

/-- The retry loop of `_analyze_market_sentiment` (src/bot.py lines
182-223): the oracle yields the Claude response text of each attempt, or
`none` when the attempt raises; every exception is retried with the same
`(retry_count + 1) * 10`-second back-off, and a successful response is
passed through `_format_tweet_analysis`. -/
def analyzeAux (now : PyDateTime) (oracle : ℕ → Option (List Char))
    (btc eth : Coin) : ℕ → ℕ → ℕ → List ℕ → RetryRun (List Char)
  | 0, _, att, sl => ⟨none, att, sl⟩
  | fuel + 1, rc, att, sl =>
    match oracle rc with
    | some analysis => ⟨some (formatTweetAnalysis now analysis btc eth), att + 1, sl⟩
    | none => analyzeAux now oracle btc eth fuel (rc + 1) (att + 1) (sl ++ [(rc + 1) * 10])

/-- `_analyze_market_sentiment` (src/bot.py lines 182-223),
`max_retries = 3`. -/
def analyzeMarketSentiment (now : PyDateTime) (oracle : ℕ → Option (List Char))
    (btc eth : Coin) : RetryRun (List Char) :=
  analyzeAux now oracle btc eth 3 0 0 []

/-- `_get_last_posts` (src/bot.py lines 76-92): the browser either yields
the recent post texts or raises, and the internal `try/except` turns any
raise into the empty list. -/
def getLastPosts (browser : Except Unit (List (List Char))) : List (List Char) :=
  match browser with
  | .ok posts => posts
  | .error _ => []

/-- The five pipeline stages of one correlation cycle (spec §4.5). -/
inductive Stage where
  | fetching
  | generating
  | histRead
  | dupCheck
  | publishing
  deriving DecidableEq, Repr

/-- Terminal outcome of one cycle: a logged stage failure, an exception
absorbed by the cycle's own `except` clause, a duplicate skip, or a
successful post. -/
inductive CycleOutcome where
  | failed (s : Stage)
  | caught
  | skippedDup
  | posted
  deriving DecidableEq, Repr

/-- Whether an outcome is a logged single-stage failure. -/
def CycleOutcome.isFailed : CycleOutcome → Bool
  | .failed _ => true
  | _ => false

/-- One cycle run: its outcome together with the stages that were actually
entered, in order. -/
structure CycleRun where
  outcome : CycleOutcome
  trace : List Stage
  deriving DecidableEq, Repr

/-- `_run_correlation_cycle` (src/bot.py lines 450-478).  The stage
collaborators are injected: the CoinGecko oracle, the Claude oracle, the
browser history read, and the publisher's success flag.  The surrounding
`try/except Exception` absorbs any exception escaping a stage — in this
pipeline, the `ZeroDivisionError` the duplicate check can raise — so the
function is total and never propagates an exception to the scheduler. -/
def runCorrelationCycle (now : PyDateTime) (fetchOracle : ℕ → FetchAttempt)
    (genOracle : ℕ → Option (List Char))
    (browser : Except Unit (List (List Char))) (publishOk : Bool) : CycleRun :=
  match (getCryptoData fetchOracle).result with
  | none => ⟨.failed .fetching, [.fetching]⟩
  | some (btc, eth) =>
    match (analyzeMarketSentiment now genOracle btc eth).result with
    | none => ⟨.failed .generating, [.fetching, .generating]⟩
    | some tweetText =>
      let lastPosts := getLastPosts browser
      match isDuplicateAnalysis tweetText lastPosts with
      | .error _ => ⟨.caught, [.fetching, .generating, .histRead, .dupCheck]⟩
      | .ok true => ⟨.skippedDup, [.fetching, .generating, .histRead, .dupCheck]⟩
      | .ok false =>
        if publishOk then
          ⟨.posted, [.fetching, .generating, .histRead, .dupCheck, .publishing]⟩
        else
          ⟨.failed .publishing,
            [.fetching, .generating, .histRead, .dupCheck, .publishing]⟩

/-! ## Shared predicates and concrete example posts -/

/-- The duplicate condition of src/bot.py lines 126-138, stated for one
history record: both price changes below the threshold, both records carry
timestamps, and the signed timestamp difference is below 30 seconds. -/
def dupCond (nd od : ExtractedData) : Prop :=
  |(nd.btc - od.btc) / od.btc * 100| < MIN_CHANGE_THRESHOLD ∧
  |(nd.eth - od.eth) / od.eth * 100| < MIN_CHANGE_THRESHOLD ∧
  ∃ tNew tOld, nd.timestamp = some tNew ∧ od.timestamp = some tOld ∧
    (toEpochSec tNew : ℤ) - (toEpochSec tOld : ℤ) < 30

/-- A history entry is harmless for the percentage-change division: it
either fails to parse or parses with nonzero prices. -/
def entryNonzero (post : List Char) : Bool :=
  match extractPriceData post with
  | some od => if od.btc = 0 ∨ od.eth = 0 then false else true
  | none => true

/-- Candidate post of the spec's §8 scenario: BTC $50000.00, ETH $3000.00,
timestamped 2024-01-01 00:00:40. -/
def candEx : List Char :=
  "Analysis - 2024-01-01 00:00:40 BTC: $50000.00 ETH: $3000.00".toList

/-- History entry 10 seconds before `candEx`, BTC $50000.01. -/
def histEx10 : List Char :=
  "Analysis - 2024-01-01 00:00:30 BTC: $50000.01 ETH: $3000.00".toList

/-- History entry 40 seconds before `candEx`, BTC $50000.01. -/
def histEx40 : List Char :=
  "Analysis - 2024-01-01 00:00:00 BTC: $50000.01 ETH: $3000.00".toList

/-- History entry whose price fields are present and exactly 0. -/
def zeroEx : List Char :=
  "Analysis - 2024-01-01 00:00:00 BTC: $0 ETH: $0".toList

/-- The extracted fields of `candEx`. -/
def ndEx : ExtractedData := ⟨50000, 3000, some ⟨2024, 1, 1, 0, 0, 40⟩⟩

/-- Candidate with a BTC price but no ETH price field: not parseable. -/
def noEthEx : List Char := "BTC: $5 only".toList

/-- Text whose BTC capture group is made only of commas, so the float
conversion of the emptied string raises. -/
def commaEx : List Char := "BTC: $,, ETH: $5".toList

/-- History entry one day after `candEx`, with near-identical prices. -/
def histLaterEx : List Char :=
  "Analysis - 2024-01-02 00:00:00 BTC: $50000.01 ETH: $3000.00".toList

/-- Post with valid prices and a syntactically matching but semantically
invalid timestamp (month 13). -/
def badTsEx : List Char := "BTC: $5 ETH: $6 Analysis - 2024-13-01 00:00:00".toList

/-- Post with valid prices and no timestamp pattern at all. -/
def noTsEx : List Char := "BTC: $5 ETH: $6".toList

/-- Post with valid prices and a timestamp capture whose year has only
three digits — rejected by the exactly-four-digit `%Y`. -/
def shortYearEx : List Char :=
  "BTC: $5 ETH: $6 Analysis - 224-01-01 00:00:00".toList

/-- Sample BTC coin record (price $50000, +1.00%, volume 100000). -/
def btcC : Coin := ⟨"btc".toList, 50000, 1, 100000⟩

/-- Sample ETH coin record (price $3000, +0.50%, volume 50000). -/
def ethC : Coin := ⟨"eth".toList, 3000, 1 / 2, 50000⟩

/-- A fixed clock reading used by the concrete cycle scenarios. -/
def now0 : PyDateTime := ⟨2024, 1, 1, 0, 0, 40⟩

/-- Coin record with an astronomically large price (`10 ^ 68` dollars),
whose comma-grouped rendering is 94 characters long. -/
def hugeBtc : Coin := ⟨"btc".toList, 10 ^ 68, 0, 0⟩

/-- Second coin record with the same astronomically large price. -/
def hugeEth : Coin := ⟨"eth".toList, 10 ^ 68, 0, 0⟩

/-- The back-off sleeps after `k` failed attempts: `attempt * 10` seconds
after the `attempt`-th failure. -/
def backoffSleeps (k : ℕ) : List ℕ :=
  (List.range k).map (fun i => (i + 1) * 10)

/-- CoinGecko oracle: one timeout, then a well-formed payload. -/
def fetchOracleOneTimeout : ℕ → FetchAttempt :=
  fun i => if i = 0 then .timeout else .payload [btcC, ethC]

/-- CoinGecko oracle: every attempt times out. -/
def fetchOracleAllTimeout : ℕ → FetchAttempt := fun _ => .timeout

/-- Claude oracle: one raised attempt, then a fixed analysis text. -/
def genOracleOneFail : ℕ → Option (List Char) :=
  fun i => if i = 0 then none else some ("ok".toList)

/-- Claude oracle: every attempt raises. -/
def genOracleAllFail : ℕ → Option (List Char) := fun _ => none

/-- CoinGecko oracle: a (non-timeout) connection error on every attempt. -/
def fetchOracleConn : ℕ → FetchAttempt := fun _ => .connError

/-- CoinGecko oracle: well-formed response missing the ETH record. -/
def fetchOracleNoEth : ℕ → FetchAttempt := fun _ => .payload [btcC]

/-- Fixed analysis text used by the concrete cycle scenarios. -/
def analysisEx : List Char := "Steady market".toList

/-- The post the pipeline formats from `analysisEx` and the sample coins
at clock reading `now0`. -/
def tweet0 : List Char := formatTweetAnalysis now0 analysisEx btcC ethC

/-- CoinGecko oracle: a well-formed payload on every attempt. -/
def goodFetch : ℕ → FetchAttempt := fun _ => .payload [btcC, ethC]

/-- Claude oracle: `analysisEx` on every attempt. -/
def goodGen : ℕ → Option (List Char) := fun _ => some analysisEx

/-- If a parsed history entry does not satisfy the duplicate condition,
removing it from the head of the history does not change whether some
entry satisfies it. -/
theorem exists_dup_cons_iff (nd od : ExtractedData) (p : List Char)
    (rest : List (List Char)) (hext : extractPriceData p = some od)
    (hnd : ¬ dupCond nd od) :
    (∃ q ∈ p :: rest, ∃ od2, extractPriceData q = some od2 ∧ dupCond nd od2) ↔
      ∃ q ∈ rest, ∃ od2, extractPriceData q = some od2 ∧ dupCond nd od2 := by
  constructor
  · rintro ⟨q, hq, od2, hod2, hc⟩
    rcases List.mem_cons.mp hq with h | h
    · subst h
      rw [hext] at hod2
      cases hod2
      exact absurd hc hnd
    · exact ⟨q, h, od2, hod2, hc⟩
  · rintro ⟨q, hq, od2, hod2, hc⟩
    exact ⟨q, List.mem_cons_of_mem p hq, od2, hod2, hc⟩

/-- If the head of the history does not parse at all, it likewise does not
affect whether some entry satisfies the duplicate condition. -/
theorem exists_dup_cons_iff_unparsed (nd : ExtractedData) (p : List Char)
    (rest : List (List Char)) (hext : extractPriceData p = none) :
    (∃ q ∈ p :: rest, ∃ od2, extractPriceData q = some od2 ∧ dupCond nd od2) ↔
      ∃ q ∈ rest, ∃ od2, extractPriceData q = some od2 ∧ dupCond nd od2 := by
  constructor
  · rintro ⟨q, hq, od2, hod2, hc⟩
    rcases List.mem_cons.mp hq with h | h
    · subst h
      rw [hext] at hod2
      cases hod2
    · exact ⟨q, h, od2, hod2, hc⟩
  · rintro ⟨q, hq, od2, hod2, hc⟩
    exact ⟨q, List.mem_cons_of_mem p hq, od2, hod2, hc⟩

/-- Over a history whose parseable entries all have nonzero prices, the
duplicate loop returns `true` exactly when some entry satisfies the
duplicate condition. -/
theorem isDuplicateAux_ok_true_iff (nd : ExtractedData) :
    ∀ posts : List (List Char), (∀ p ∈ posts, entryNonzero p = true) →
      (isDuplicateAux nd posts = .ok true ↔
        ∃ p ∈ posts, ∃ od, extractPriceData p = some od ∧ dupCond nd od) := by
  intro posts
  induction posts with
  | nil => simp [isDuplicateAux]
  | cons p rest ih =>
    intro hnz
    have hp := hnz p (List.mem_cons_self p rest)
    have hrest : ∀ q ∈ rest, entryNonzero q = true :=
      fun q hq => hnz q (List.mem_cons_of_mem p hq)
    have ihr := ih hrest
    cases hext : extractPriceData p with
    | none =>
      have hstep : isDuplicateAux nd (p :: rest) = isDuplicateAux nd rest := by
        simp [isDuplicateAux, hext]
      rw [hstep, ihr, exists_dup_cons_iff_unparsed nd p rest hext]
    | some od =>
      simp only [entryNonzero, hext] at hp
      have hne : ¬ (od.btc = 0 ∨ od.eth = 0) := by
        intro h
        rw [if_pos h] at hp
        cases hp
      have hb : od.btc ≠ 0 := fun h => hne (Or.inl h)
      have he : od.eth ≠ 0 := fun h => hne (Or.inr h)
      rcases hnt : nd.timestamp with _ | tNew
      · have hstep : isDuplicateAux nd (p :: rest) = isDuplicateAux nd rest := by
          simp [isDuplicateAux, hext, hb, he, hnt]
        have hnd : ¬ dupCond nd od := by
          rintro ⟨-, -, tNew, tOld, hsome, -, -⟩
          rw [hnt] at hsome
          cases hsome
        rw [hstep, ihr, exists_dup_cons_iff nd od p rest hext hnd]
      · rcases hot : od.timestamp with _ | tOld
        · have hstep : isDuplicateAux nd (p :: rest) = isDuplicateAux nd rest := by
            simp [isDuplicateAux, hext, hb, he, hnt, hot]
          have hnd : ¬ dupCond nd od := by
            rintro ⟨-, -, tNew2, tOld2, -, hsome, -⟩
            rw [hot] at hsome
            cases hsome
          rw [hstep, ihr, exists_dup_cons_iff nd od p rest hext hnd]
        · by_cases hcc : |(nd.btc - od.btc) / od.btc * 100| < MIN_CHANGE_THRESHOLD ∧
              |(nd.eth - od.eth) / od.eth * 100| < MIN_CHANGE_THRESHOLD
          · by_cases h30 : (toEpochSec tNew : ℤ) - (toEpochSec tOld : ℤ) < 30
            · have hstep : isDuplicateAux nd (p :: rest) = .ok true := by
                simp [isDuplicateAux, hext, hb, he, hnt, hot, hcc, h30]
              rw [hstep]
              constructor
              · intro _
                exact ⟨p, List.mem_cons_self p rest, od, hext,
                  hcc.1, hcc.2, tNew, tOld, hnt, hot, h30⟩
              · intro _
                rfl
            · have hstep : isDuplicateAux nd (p :: rest) = isDuplicateAux nd rest := by
                simp [isDuplicateAux, hext, hb, he, hnt, hot, hcc, h30]
              have hnd : ¬ dupCond nd od := by
                rintro ⟨-, -, tNew2, tOld2, hs1, hs2, hlt⟩
                rw [hnt] at hs1
                rw [hot] at hs2
                cases hs1
                cases hs2
                exact h30 hlt
              rw [hstep, ihr, exists_dup_cons_iff nd od p rest hext hnd]
          · have hstep : isDuplicateAux nd (p :: rest) = isDuplicateAux nd rest := by
              simp [isDuplicateAux, hext, hb, he, hnt, hot, hcc]
            have hnd : ¬ dupCond nd od := by
              rintro ⟨h1, h2, -⟩
              exact hcc ⟨h1, h2⟩
            rw [hstep, ihr, exists_dup_cons_iff nd od p rest hext hnd]

/-! ## Claim C1 -/

unseal Rat.add Rat.mul Rat.inv Rat.sub in
/-- Claim C1 (amended): provided every parseable history entry has nonzero
extracted BTC and ETH prices (a zero historical price instead makes the
check raise an unhandled division error, see C8), `_is_duplicate_analysis`
returns `true` for a parseable candidate if and only if some history entry
parses to both prices with both changes `|new - old| / old * 100` below
0.01, both records carrying timestamps, and signed difference
`new.timestamp - old.timestamp` under 30 seconds; an empty or never-matching
history gives `false`.  In particular the spec's §8 pair: a 10-second-earlier
entry at BTC $50000.01 / ETH $3000.00 yields `true`, the same entry 40
seconds earlier yields `false`. -/
theorem c1_duplicate_iff_amended (cand : List Char) (hist : List (List Char))
    (nd : ExtractedData) (hparse : extractPriceData cand = some nd)
    (hnz : ∀ p ∈ hist, entryNonzero p = true) :
    (isDuplicateAnalysis cand hist = .ok true ↔
      ∃ p ∈ hist, ∃ od, extractPriceData p = some od ∧ dupCond nd od) ∧
    isDuplicateAnalysis candEx [histEx10] = .ok true ∧
    isDuplicateAnalysis candEx [histEx40] = .ok false := by
  refine ⟨?_, ?_, ?_⟩
  · have hstep : isDuplicateAnalysis cand hist = isDuplicateAux nd hist := by
      simp [isDuplicateAnalysis, hparse]
    rw [hstep]
    exact isDuplicateAux_ok_true_iff nd hist hnz
  · decide
  · decide

unseal Rat.add Rat.mul Rat.inv Rat.sub in
/-- Claim C1, witness: the amended theorem applied to the spec's §8
candidate against the 10-second-earlier history entry. -/
theorem c1_duplicate_iff_amended_witness :
    (isDuplicateAnalysis candEx [histEx10] = .ok true ↔
      ∃ p ∈ [histEx10], ∃ od, extractPriceData p = some od ∧ dupCond ndEx od) ∧
    isDuplicateAnalysis candEx [histEx10] = .ok true ∧
    isDuplicateAnalysis candEx [histEx40] = .ok false :=
  c1_duplicate_iff_amended candEx [histEx10] ndEx (by decide) (by decide)

unseal Rat.add Rat.mul Rat.inv Rat.sub in
/-- Claim C1, counterexample to the unamended claim: for the parseable
candidate `candEx` and the history `[zeroEx, histEx10]`, some history entry
(`histEx10`) satisfies the claimed duplicate condition, yet the function
does not return `true` — it raises an unhandled `ZeroDivisionError` on the
zero-priced entry encountered first. -/
theorem c1_duplicate_iff_counterexample :
    extractPriceData candEx = some ndEx ∧
    ¬ (isDuplicateAnalysis candEx [zeroEx, histEx10] = .ok true ↔
        ∃ p ∈ [zeroEx, histEx10], ∃ od, extractPriceData p = some od ∧
          dupCond ndEx od) := by
  refine ⟨by decide, ?_⟩
  intro h
  have hmem : histEx10 ∈ [zeroEx, histEx10] := by
    simp
  have hok : isDuplicateAnalysis candEx [zeroEx, histEx10] = .ok true :=
    h.mpr ⟨histEx10, hmem, ⟨5000001 / 100, 3000, some ⟨2024, 1, 1, 0, 0, 30⟩⟩,
      by decide, by decide, by decide,
      ⟨2024, 1, 1, 0, 0, 40⟩, ⟨2024, 1, 1, 0, 0, 30⟩, rfl, rfl, by decide⟩
  exact absurd hok (by decide)

/-! ## Claims C7-C10 -/

/-- The duplicate loop returns `false` when no history entry parses. -/
theorem isDuplicateAux_all_unparsed (nd : ExtractedData) :
    ∀ hist : List (List Char), (∀ p ∈ hist, extractPriceData p = none) →
      isDuplicateAux nd hist = .ok false := by
  intro hist
  induction hist with
  | nil => intro _; rfl
  | cons p rest ih =>
    intro h
    have hp : extractPriceData p = none := h p (List.mem_cons_self p rest)
    have hstep : isDuplicateAux nd (p :: rest) = isDuplicateAux nd rest := by
      simp [isDuplicateAux, hp]
    rw [hstep]
    exact ih fun q hq => h q (List.mem_cons_of_mem p hq)

/-- Claim C7: the duplicate check is fail-open on malformed text — a
candidate with no usable price pair yields `false` for any history; a
history entry with no usable price pair is silently skipped, the rest of
the history still being checked; a history in which nothing parses yields
`false`; and field extraction is total, returning the empty record when a
price regex does not match or a captured price fails float conversion. -/
theorem c7_fail_open :
    (∀ cand hist, extractPriceData cand = none →
      isDuplicateAnalysis cand hist = .ok false) ∧
    (∀ cand p rest, extractPriceData p = none →
      isDuplicateAnalysis cand (p :: rest) = isDuplicateAnalysis cand rest) ∧
    (∀ cand hist, (∀ p ∈ hist, extractPriceData p = none) →
      isDuplicateAnalysis cand hist = .ok false) ∧
    (∀ t, searchPrice btcLit t = none ∨
        searchPrice ethLit t = none →
      extractPriceData t = none) ∧
    (∀ t bs es, searchPrice btcLit t = some bs →
      searchPrice ethLit t = some es →
      parsePyFloat (removeCommas bs) = none ∨
        parsePyFloat (removeCommas es) = none →
      extractPriceData t = none) := by
  refine ⟨?_, ?_, ?_, ?_, ?_⟩
  · intro cand hist h
    simp [isDuplicateAnalysis, h]
  · intro cand p rest h
    cases hc : extractPriceData cand with
    | none => simp [isDuplicateAnalysis, hc]
    | some nd => simp [isDuplicateAnalysis, hc, isDuplicateAux, h]
  · intro cand hist h
    cases hc : extractPriceData cand with
    | none => simp [isDuplicateAnalysis, hc]
    | some nd =>
      have hstep : isDuplicateAnalysis cand hist = isDuplicateAux nd hist := by
        simp [isDuplicateAnalysis, hc]
      rw [hstep]
      exact isDuplicateAux_all_unparsed nd hist h
  · intro t h
    rcases h with h | h
    · cases he : searchPrice ethLit t with
      | none => simp [extractPriceData, h, he]
      | some es => simp [extractPriceData, h, he]
    · cases hb : searchPrice btcLit t with
      | none => simp [extractPriceData, h, hb]
      | some bs => simp [extractPriceData, h, hb]
  · intro t bs es hb he h
    rcases h with h | h
    · cases hp : parsePyFloat (removeCommas es) with
      | none => simp [extractPriceData, hb, he, h, hp]
      | some e => simp [extractPriceData, hb, he, h, hp]
    · cases hp : parsePyFloat (removeCommas bs) with
      | none => simp [extractPriceData, hb, he, h, hp]
      | some b => simp [extractPriceData, hb, he, h, hp]

unseal Rat.add Rat.mul Rat.inv Rat.sub in
/-- Claim C7, witness: the five parts of the fail-open theorem applied to
concrete malformed posts. -/
theorem c7_fail_open_witness :
    isDuplicateAnalysis ("hello".toList) [histEx10] = .ok false ∧
    isDuplicateAnalysis candEx (noEthEx :: [histEx10]) =
      isDuplicateAnalysis candEx [histEx10] ∧
    isDuplicateAnalysis candEx [noEthEx] = .ok false ∧
    extractPriceData ("nothing".toList) = none ∧
    extractPriceData commaEx = none :=
  ⟨c7_fail_open.1 ("hello".toList) [histEx10] (by decide),
   c7_fail_open.2.1 candEx noEthEx [histEx10] (by decide),
   c7_fail_open.2.2.1 candEx [noEthEx] (by decide),
   c7_fail_open.2.2.2.1 ("nothing".toList) (Or.inl (by decide)),
   c7_fail_open.2.2.2.2 commaEx ([','] ++ [',']) (['5'])
     (by decide) (by decide) (Or.inl (by decide))⟩

unseal Rat.add Rat.mul Rat.inv Rat.sub in
/-- Claim C8: the percentage-change computation divides by the historical
prices with no zero guard — for the parseable candidate `candEx` and the
history entry `zeroEx` whose price fields are present and exactly 0, the
duplicate check raises an unhandled `ZeroDivisionError` (modelled
`Except.error ()`) instead of resolving to `false`. -/
theorem c8_div_zero_unhandled :
    extractPriceData zeroEx = some ⟨0, 0, some ⟨2024, 1, 1, 0, 0, 0⟩⟩ ∧
    extractPriceData candEx = some ndEx ∧
    isDuplicateAnalysis candEx [zeroEx] = .error () ∧
    isDuplicateAnalysis candEx [zeroEx] ≠ .ok false := by
  exact ⟨by decide, by decide, by decide, by decide⟩

/-- Claim C9: the 30-second window is a signed comparison, not an absolute
one — whenever candidate and history entry both parse with (nonzero)
prices and timestamps and both price changes are below the threshold, a
history timestamp at or after the candidate's makes the entry a duplicate
no matter how large the (negative) difference, since only
`new.timestamp - old.timestamp < 30` is tested. -/
theorem c9_signed_window (cand p : List Char) (rest : List (List Char))
    (nd od : ExtractedData) (tNew tOld : PyDateTime)
    (h1 : extractPriceData cand = some nd)
    (h2 : extractPriceData p = some od)
    (hb : od.btc ≠ 0) (he : od.eth ≠ 0)
    (hbc : |(nd.btc - od.btc) / od.btc * 100| < MIN_CHANGE_THRESHOLD)
    (hec : |(nd.eth - od.eth) / od.eth * 100| < MIN_CHANGE_THRESHOLD)
    (hnt : nd.timestamp = some tNew) (hot : od.timestamp = some tOld)
    (hord : toEpochSec tNew ≤ toEpochSec tOld) :
    isDuplicateAnalysis cand (p :: rest) = .ok true := by
  have h30 : (toEpochSec tNew : ℤ) - (toEpochSec tOld : ℤ) < 30 := by omega
  simp [isDuplicateAnalysis, h1, isDuplicateAux, h2, hb, he, hnt, hot, hbc, hec, h30]

unseal Rat.add Rat.mul Rat.inv Rat.sub in
/-- Claim C9, witness: a history entry one full day in the future of the
candidate is still classified a duplicate. -/
theorem c9_signed_window_witness :
    isDuplicateAnalysis candEx [histLaterEx] = .ok true :=
  c9_signed_window candEx histLaterEx [] ndEx
    ⟨5000001 / 100, 3000, some ⟨2024, 1, 2, 0, 0, 0⟩⟩
    ⟨2024, 1, 1, 0, 0, 40⟩ ⟨2024, 1, 2, 0, 0, 0⟩
    (by decide) (by decide) (by decide) (by decide) (by decide) (by decide)
    (by decide) (by decide) (by decide)

/-- Claim C10: when a post contains valid BTC and ETH price fields and a
substring matching the timestamp pattern whose capture is not a valid
`YYYY-MM-DD HH:MM:SS` datetime, extraction returns the empty record,
discarding the already-parsed prices; the price pair with an absent
timestamp is returned only when the timestamp pattern does not match at
all. -/
theorem c10_bad_timestamp_discards :
    (∀ t bs es b e s, searchPrice btcLit t = some bs →
      searchPrice ethLit t = some es →
      parsePyFloat (removeCommas bs) = some b →
      parsePyFloat (removeCommas es) = some e →
      searchTs t = some s → strptimeYmdHms s = none →
      extractPriceData t = none) ∧
    (∀ t bs es b e, searchPrice btcLit t = some bs →
      searchPrice ethLit t = some es →
      parsePyFloat (removeCommas bs) = some b →
      parsePyFloat (removeCommas es) = some e →
      searchTs t = none →
      extractPriceData t = some ⟨b, e, none⟩) := by
  constructor
  · intro t bs es b e s h1 h2 h3 h4 h5 h6
    simp [extractPriceData, h1, h2, h3, h4, h5, h6]
  · intro t bs es b e h1 h2 h3 h4 h5
    simp [extractPriceData, h1, h2, h3, h4, h5]

unseal Rat.add Rat.mul Rat.inv Rat.sub in
/-- Claim C10, witness: a month-13 timestamp and a three-digit-year
timestamp each discard the parsed prices, while a missing timestamp
pattern keeps them with an absent timestamp. -/
theorem c10_bad_timestamp_discards_witness :
    extractPriceData badTsEx = none ∧
    extractPriceData shortYearEx = none ∧
    extractPriceData noTsEx = some ⟨5, 6, none⟩ :=
  ⟨c10_bad_timestamp_discards.1 badTsEx (['5']) (['6']) 5 6
      ("2024-13-01 00:00:00".toList)
      (by decide) (by decide) (by decide) (by decide) (by decide) (by decide),
   c10_bad_timestamp_discards.1 shortYearEx (['5']) (['6']) 5 6
      ("224-01-01 00:00:00".toList)
      (by decide) (by decide) (by decide) (by decide) (by decide) (by decide),
   c10_bad_timestamp_discards.2 noTsEx (['5']) (['6']) 5 6
      (by decide) (by decide) (by decide) (by decide) (by decide)⟩

/-! ## Claim C2 -/

/-- Invariant of the greedy line-fitting loop: if the tweet assembled from
the current accumulator is within the hard stop, so is the tweet assembled
from the final accumulator (each accepted line's checked length equals the
length of the assembled tweet that includes it). -/
theorem fitAnalysisLines_length (base : List Char) :
    ∀ (lines : List (List Char)) (acc : List Char),
      (base ++ acc ++ "\n#Crypto #ETH #BTC".toList).length ≤ HARD_STOP_LENGTH →
      (base ++ fitAnalysisLines base acc lines ++
        "\n#Crypto #ETH #BTC".toList).length ≤ HARD_STOP_LENGTH := by
  intro lines
  induction lines with
  | nil =>
    intro acc h
    simpa [fitAnalysisLines] using h
  | cons line rest ih =>
    intro acc h
    by_cases hc : (base ++ acc ++ line ++ "\n\n#Crypto #ETH #BTC".toList).length ≤
        HARD_STOP_LENGTH
    · have hunf : fitAnalysisLines base acc (line :: rest) =
          if (base ++ acc ++ line ++ "\n\n#Crypto #ETH #BTC".toList).length ≤
              HARD_STOP_LENGTH then
            fitAnalysisLines base (acc ++ line ++ ['\n']) rest
          else acc := rfl
      rw [hunf, if_pos hc]
      apply ih
      have h19 : ("\n\n#Crypto #ETH #BTC".toList).length = 19 := by decide
      have h18 : ("\n#Crypto #ETH #BTC".toList).length = 18 := by decide
      simp only [List.length_append, List.length_cons, List.length_nil, h18, h19,
        HARD_STOP_LENGTH] at hc ⊢
      omega
    · have hunf : fitAnalysisLines base acc (line :: rest) =
          if (base ++ acc ++ line ++ "\n\n#Crypto #ETH #BTC".toList).length ≤
              HARD_STOP_LENGTH then
            fitAnalysisLines base (acc ++ line ++ ['\n']) rest
          else acc := rfl
      rw [hunf, if_neg hc]
      exact h

/-- Claim C2 (amended): the formatted post never exceeds
`HARD_STOP_LENGTH` (280) provided the fixed header fits alongside the
hashtag check block, i.e. the header is at most 261 characters (always the
case for realistically-sized prices; see the counterexample for
astronomically long price renderings). -/
theorem c2_format_length_amended (now : PyDateTime) (analysis : List Char)
    (btc eth : Coin)
    (hbase : (baseTweet now btc eth).length + 19 ≤ HARD_STOP_LENGTH) :
    (formatTweetAnalysis now analysis btc eth).length ≤ HARD_STOP_LENGTH := by
  have h18 : ("\n#Crypto #ETH #BTC".toList).length = 18 := by decide
  have h29 : ("\nDetailed analysis available.".toList).length = 29 := by decide
  have hfin : (baseTweet now btc eth ++
      fitAnalysisLines (baseTweet now btc eth) [] (pySplitNl analysis) ++
      "\n#Crypto #ETH #BTC".toList).length ≤ HARD_STOP_LENGTH := by
    apply fitAnalysisLines_length
    simp only [List.length_append, List.length_nil, h18, HARD_STOP_LENGTH] at hbase ⊢
    omega
  simp only [formatTweetAnalysis]
  by_cases hm : (baseTweet now btc eth ++
      fitAnalysisLines (baseTweet now btc eth) [] (pySplitNl analysis) ++
      "\n#Crypto #ETH #BTC".toList).length < MIN_LENGTH
  · rw [if_pos hm]
    simp only [List.length_append, h29, MIN_LENGTH, HARD_STOP_LENGTH] at hm ⊢
    omega
  · rw [if_neg hm]
    exact hfin

unseal Rat.add Rat.mul Rat.inv Rat.sub in
/-- Claim C2, witness: the amended length bound at a realistic snapshot. -/
theorem c2_format_length_amended_witness :
    (formatTweetAnalysis now0 ("Hello market".toList) btcC ethC).length ≤
      HARD_STOP_LENGTH :=
  c2_format_length_amended now0 ("Hello market".toList) btcC ethC (by decide)

set_option maxRecDepth 4000 in
unseal Rat.add Rat.mul Rat.inv Rat.sub in
/-- Claim C2, counterexample to the unamended claim: with `10 ^ 68`-dollar
prices the fixed header alone is 266 characters, no analysis line fits,
and the finished post is 284 characters — beyond `HARD_STOP_LENGTH`. -/
theorem c2_format_length_counterexample :
    HARD_STOP_LENGTH < (formatTweetAnalysis now0 [] hugeBtc hugeEth).length := by
  decide

/-! ## Claims C3 and C4 -/

/-- Claim C3 (amended): for each retrying component (the market-data fetch,
whose transient failures are timeouts, and the analysis generation, where
every per-attempt error is transient), at most 2 injected transient
failures followed by a success still yield success, while 3 or more
consecutive transient failures yield the max-retries-exceeded failure
(`None`) after exactly 3 attempts, sleeping `attempt * 10` seconds after
each failed attempt (10 s, 20 s, 30 s). -/
theorem c3_retry_budget_amended :
    (∀ (oracle : ℕ → FetchAttempt) (k : ℕ) (coins : List Coin) (b e : Coin),
      k ≤ 2 → (∀ i < k, oracle i = .timeout) → oracle k = .payload coins →
      findCoinLast btcSym coins = some b → findCoinLast ethSym coins = some e →
      getCryptoData oracle = ⟨some (b, e), k + 1, backoffSleeps k⟩) ∧
    (∀ oracle : ℕ → FetchAttempt, (∀ i < 3, oracle i = .timeout) →
      getCryptoData oracle = ⟨none, 3, [10, 20, 30]⟩) ∧
    (∀ (now : PyDateTime) (oracle : ℕ → Option (List Char)) (btc eth : Coin)
        (k : ℕ) (a : List Char),
      k ≤ 2 → (∀ i < k, oracle i = none) → oracle k = some a →
      analyzeMarketSentiment now oracle btc eth =
        ⟨some (formatTweetAnalysis now a btc eth), k + 1, backoffSleeps k⟩) ∧
    (∀ (now : PyDateTime) (oracle : ℕ → Option (List Char)) (btc eth : Coin),
      (∀ i < 3, oracle i = none) →
      analyzeMarketSentiment now oracle btc eth = ⟨none, 3, [10, 20, 30]⟩) := by
  refine ⟨?_, ?_, ?_, ?_⟩
  · intro oracle k coins b e hk hfail hsucc hb he
    interval_cases k
    · simp [getCryptoData, getCryptoAux, hsucc, hb, he, backoffSleeps]
    · simp [getCryptoData, getCryptoAux, hfail 0 (by omega), hsucc, hb, he,
        backoffSleeps, List.range_succ]
    · simp [getCryptoData, getCryptoAux, hfail 0 (by omega), hfail 1 (by omega),
        hsucc, hb, he, backoffSleeps, List.range_succ]
  · intro oracle h
    simp [getCryptoData, getCryptoAux, h 0 (by omega), h 1 (by omega), h 2 (by omega)]
  · intro now oracle btc eth k a hk hfail hsucc
    interval_cases k
    · simp [analyzeMarketSentiment, analyzeAux, hsucc, backoffSleeps]
    · simp [analyzeMarketSentiment, analyzeAux, hfail 0 (by omega), hsucc,
        backoffSleeps, List.range_succ]
    · simp [analyzeMarketSentiment, analyzeAux, hfail 0 (by omega),
        hfail 1 (by omega), hsucc, backoffSleeps, List.range_succ]
  · intro now oracle btc eth h
    simp [analyzeMarketSentiment, analyzeAux, h 0 (by omega), h 1 (by omega),
      h 2 (by omega)]

unseal Rat.add Rat.mul Rat.inv Rat.sub in
/-- Claim C3, witness: the amended retry bounds at concrete oracles — one
timeout then success succeeds on the second attempt; three timeouts
exhaust the budget after exactly 3 attempts and sleeps 10 s, 20 s, 30 s;
likewise for the generation component. -/
theorem c3_retry_budget_amended_witness :
    getCryptoData fetchOracleOneTimeout = ⟨some (btcC, ethC), 2, backoffSleeps 1⟩ ∧
    getCryptoData fetchOracleAllTimeout = ⟨none, 3, [10, 20, 30]⟩ ∧
    analyzeMarketSentiment now0 genOracleOneFail btcC ethC =
      ⟨some (formatTweetAnalysis now0 ("ok".toList) btcC ethC), 2, backoffSleeps 1⟩ ∧
    analyzeMarketSentiment now0 genOracleAllFail btcC ethC = ⟨none, 3, [10, 20, 30]⟩ :=
  ⟨c3_retry_budget_amended.1 fetchOracleOneTimeout 1 [btcC, ethC] btcC ethC
      (by omega) (fun i hi => by interval_cases i; rfl) rfl (by decide) (by decide),
   c3_retry_budget_amended.2.1 fetchOracleAllTimeout (fun i _ => rfl),
   c3_retry_budget_amended.2.2.1 now0 genOracleOneFail btcC ethC 1 ("ok".toList)
      (by omega) (fun i hi => by interval_cases i; rfl) rfl,
   c3_retry_budget_amended.2.2.2 now0 genOracleAllFail btcC ethC (fun i _ => rfl)⟩

unseal Rat.add Rat.mul Rat.inv Rat.sub in
/-- Claim C3, counterexample to the unamended claim: 3 timeouts followed
by a well-formed payload do not yield success — the budget is exhausted
after the 3 failed attempts, so the fourth, successful attempt is never
made. -/
theorem c3_retry_budget_counterexample :
    ¬ (∀ (oracle : ℕ → FetchAttempt) (k : ℕ), k ≤ 3 →
        (∀ i < k, oracle i = .timeout) →
        (∃ coins b e, oracle k = .payload coins ∧
          findCoinLast btcSym coins = some b ∧
          findCoinLast ethSym coins = some e) →
        (getCryptoData oracle).result.isSome = true) := by
  intro h
  have h3 := h (fun i => if i < 3 then .timeout else .payload [btcC, ethC]) 3
    (by omega) (fun i hi => by simp [hi])
    ⟨[btcC, ethC], btcC, ethC, by norm_num, by decide, by decide⟩
  exact absurd h3 (by decide)

/-- Claim C4 (amended): in the market-data fetch only timeouts are retried
(linear back-off `attempt * 10` s, at most 3 attempts, failure after
exhaustion); a non-timeout connection error — like any other non-timeout
exception and like a data-shape failure (payload missing BTC or ETH) —
surfaces immediately as a `None` result on the attempt it occurs, without
consuming the remaining retry budget. -/
theorem c4_timeout_only_retry_amended :
    (∀ (oracle : ℕ → FetchAttempt) (k : ℕ), k ≤ 2 →
      (∀ i < k, oracle i = .timeout) →
      oracle k = .connError ∨ oracle k = .httpError →
      getCryptoData oracle = ⟨none, k + 1, backoffSleeps k⟩) ∧
    (∀ (oracle : ℕ → FetchAttempt) (k : ℕ) (coins : List Coin), k ≤ 2 →
      (∀ i < k, oracle i = .timeout) → oracle k = .payload coins →
      findCoinLast btcSym coins = none ∨ findCoinLast ethSym coins = none →
      getCryptoData oracle = ⟨none, k + 1, backoffSleeps k⟩) ∧
    (∀ oracle : ℕ → FetchAttempt, (∀ i < 3, oracle i = .timeout) →
      getCryptoData oracle = ⟨none, 3, [10, 20, 30]⟩) := by
  refine ⟨?_, ?_, ?_⟩
  · intro oracle k hk hfail hlast
    interval_cases k
    · rcases hlast with hl | hl
      · simp [getCryptoData, getCryptoAux, hl, backoffSleeps]
      · simp [getCryptoData, getCryptoAux, hl, backoffSleeps]
    · rcases hlast with hl | hl
      · simp [getCryptoData, getCryptoAux, hfail 0 (by omega), hl,
          backoffSleeps, List.range_succ]
      · simp [getCryptoData, getCryptoAux, hfail 0 (by omega), hl,
          backoffSleeps, List.range_succ]
    · rcases hlast with hl | hl
      · simp [getCryptoData, getCryptoAux, hfail 0 (by omega), hfail 1 (by omega),
          hl, backoffSleeps, List.range_succ]
      · simp [getCryptoData, getCryptoAux, hfail 0 (by omega), hfail 1 (by omega),
          hl, backoffSleeps, List.range_succ]
  · intro oracle k coins hk hfail hsucc hshape
    have hred : ∀ sl att,
        (match findCoinLast btcSym coins, findCoinLast ethSym coins with
          | some b, some e => (⟨some (b, e), att + 1, sl⟩ : RetryRun (Coin × Coin))
          | _, _ => ⟨none, att + 1, sl⟩) = ⟨none, att + 1, sl⟩ := by
      intro sl att
      rcases hshape with hs | hs
      · cases he2 : findCoinLast ethSym coins <;> simp [hs, he2]
      · cases hb2 : findCoinLast btcSym coins <;> simp [hs, hb2]
    interval_cases k
    · simpa [getCryptoData, getCryptoAux, hsucc, backoffSleeps] using hred [] 0
    · simpa [getCryptoData, getCryptoAux, hfail 0 (by omega), hsucc,
        backoffSleeps, List.range_succ] using hred [10] 1
    · simpa [getCryptoData, getCryptoAux, hfail 0 (by omega), hfail 1 (by omega),
        hsucc, backoffSleeps, List.range_succ] using hred [10, 20] 2
  · intro oracle h
    simp [getCryptoData, getCryptoAux, h 0 (by omega), h 1 (by omega), h 2 (by omega)]

unseal Rat.add Rat.mul Rat.inv Rat.sub in
/-- Claim C4, witness: a connection error on the first attempt surfaces at
once after a single attempt with no back-off sleep; so does a payload
missing ETH; three timeouts exhaust the budget. -/
theorem c4_timeout_only_retry_amended_witness :
    getCryptoData fetchOracleConn = ⟨none, 1, backoffSleeps 0⟩ ∧
    getCryptoData fetchOracleNoEth = ⟨none, 1, backoffSleeps 0⟩ ∧
    getCryptoData fetchOracleAllTimeout = ⟨none, 3, [10, 20, 30]⟩ :=
  ⟨c4_timeout_only_retry_amended.1 fetchOracleConn 0 (by omega)
      (fun i hi => absurd hi (by omega)) (Or.inl rfl),
   c4_timeout_only_retry_amended.2.1 fetchOracleNoEth 0 [btcC] (by omega)
      (fun i hi => absurd hi (by omega)) rfl (Or.inr (by decide)),
   c4_timeout_only_retry_amended.2.2 fetchOracleAllTimeout (fun i _ => rfl)⟩

unseal Rat.add Rat.mul Rat.inv Rat.sub in
/-- Claim C4, counterexample to the unamended claim: a connection error on
the first attempt followed by a perfectly good payload is not retried —
the fetch returns the failure `None` after one attempt instead of
retrying the transient network failure. -/
theorem c4_timeout_only_retry_counterexample :
    ¬ (∀ (oracle : ℕ → FetchAttempt) (k : ℕ), k ≤ 2 →
        (∀ i < k, oracle i = .timeout ∨ oracle i = .connError) →
        (∃ coins b e, oracle k = .payload coins ∧
          findCoinLast btcSym coins = some b ∧
          findCoinLast ethSym coins = some e) →
        (getCryptoData oracle).result.isSome = true) := by
  intro h
  have h1 := h (fun i => if i = 0 then .connError else .payload [btcC, ethC]) 1
    (by omega) (fun i hi => by interval_cases i; exact Or.inr rfl)
    ⟨[btcC, ethC], btcC, ethC, rfl, by decide, by decide⟩
  exact absurd h1 (by decide)

/-! ## Claims C5 and C6 -/

/-- Claim C5 (amended): a failure injected at the fetch, generation,
duplicate-check or publish stage makes the cycle return normally with
exactly one failed-stage outcome (for the duplicate check, the raised
division error absorbed by the cycle's own handler), ending the cycle
early; an injected history-read failure, however, is caught inside the
read and absorbed as an empty history, after which the cycle proceeds —
in every case no exception propagates past the cycle boundary (the cycle
function is total into `CycleRun`). -/
theorem c5_cycle_isolation_amended :
    (∀ (now : PyDateTime) (fO : ℕ → FetchAttempt) (gO : ℕ → Option (List Char))
        (br : Except Unit (List (List Char))) (pO : Bool),
      (getCryptoData fO).result = none →
      runCorrelationCycle now fO gO br pO = ⟨.failed .fetching, [.fetching]⟩) ∧
    (∀ now fO gO br pO (b e : Coin),
      (getCryptoData fO).result = some (b, e) →
      (analyzeMarketSentiment now gO b e).result = none →
      runCorrelationCycle now fO gO br pO =
        ⟨.failed .generating, [.fetching, .generating]⟩) ∧
    (∀ now fO gO pO,
      runCorrelationCycle now fO gO (.error ()) pO =
        runCorrelationCycle now fO gO (.ok []) pO) ∧
    (∀ now fO gO br pO (b e : Coin) (tweet : List Char),
      (getCryptoData fO).result = some (b, e) →
      (analyzeMarketSentiment now gO b e).result = some tweet →
      isDuplicateAnalysis tweet (getLastPosts br) = .error () →
      runCorrelationCycle now fO gO br pO =
        ⟨.caught, [.fetching, .generating, .histRead, .dupCheck]⟩) ∧
    (∀ now fO gO br (b e : Coin) (tweet : List Char),
      (getCryptoData fO).result = some (b, e) →
      (analyzeMarketSentiment now gO b e).result = some tweet →
      isDuplicateAnalysis tweet (getLastPosts br) = .ok false →
      runCorrelationCycle now fO gO br false =
        ⟨.failed .publishing,
          [.fetching, .generating, .histRead, .dupCheck, .publishing]⟩) := by
  refine ⟨?_, ?_, ?_, ?_, ?_⟩
  · intro now fO gO br pO hf
    simp [runCorrelationCycle, hf]
  · intro now fO gO br pO b e hf hg
    simp [runCorrelationCycle, hf, hg]
  · intro now fO gO pO
    have hlp : getLastPosts (Except.error ()) = getLastPosts (Except.ok []) := rfl
    cases hf : (getCryptoData fO).result with
    | none => simp [runCorrelationCycle, hf]
    | some pair =>
      obtain ⟨b, e⟩ := pair
      cases hg : (analyzeMarketSentiment now gO b e).result with
      | none => simp [runCorrelationCycle, hf, hg]
      | some tweet => simp [runCorrelationCycle, hf, hg, getLastPosts]
  · intro now fO gO br pO b e tweet hf hg hd
    simp [runCorrelationCycle, hf, hg, hd]
  · intro now fO gO br b e tweet hf hg hd
    simp [runCorrelationCycle, hf, hg, hd]

set_option maxRecDepth 8000 in
unseal Rat.add Rat.mul Rat.inv Rat.sub in
/-- Claim C5, witness: the five injection scenarios at concrete oracles —
fetch exhaustion, generation exhaustion, an injected history-read failure
(absorbed, cycle equal to the empty-history cycle), a division error
raised inside the duplicate check and caught by the cycle, and a failing
publisher. -/
theorem c5_cycle_isolation_amended_witness :
    runCorrelationCycle now0 fetchOracleAllTimeout goodGen (.ok []) true =
      ⟨.failed .fetching, [.fetching]⟩ ∧
    runCorrelationCycle now0 goodFetch genOracleAllFail (.ok []) true =
      ⟨.failed .generating, [.fetching, .generating]⟩ ∧
    runCorrelationCycle now0 goodFetch goodGen (.error ()) true =
      runCorrelationCycle now0 goodFetch goodGen (.ok []) true ∧
    runCorrelationCycle now0 goodFetch goodGen (.ok [zeroEx]) true =
      ⟨.caught, [.fetching, .generating, .histRead, .dupCheck]⟩ ∧
    runCorrelationCycle now0 goodFetch goodGen (.ok []) false =
      ⟨.failed .publishing,
        [.fetching, .generating, .histRead, .dupCheck, .publishing]⟩ :=
  ⟨c5_cycle_isolation_amended.1 now0 fetchOracleAllTimeout goodGen (.ok []) true
      (by decide),
   c5_cycle_isolation_amended.2.1 now0 goodFetch genOracleAllFail (.ok []) true
      btcC ethC (by decide) (by decide),
   c5_cycle_isolation_amended.2.2.1 now0 goodFetch goodGen true,
   c5_cycle_isolation_amended.2.2.2.1 now0 goodFetch goodGen (.ok [zeroEx]) true
      btcC ethC tweet0 (by decide) (by decide) (by decide),
   c5_cycle_isolation_amended.2.2.2.2 now0 goodFetch goodGen (.ok []) btcC ethC
      tweet0 (by decide) (by decide) (by decide)⟩

set_option maxRecDepth 8000 in
unseal Rat.add Rat.mul Rat.inv Rat.sub in
/-- Claim C5, counterexample to the unamended claim: a failure injected at
the history-read stage does not yield a failed-stage outcome and does not
end the cycle early — the read's internal handler degrades it to an empty
history and the cycle goes on to publish. -/
theorem c5_cycle_isolation_counterexample :
    (runCorrelationCycle now0 goodFetch goodGen (.error ()) true).outcome =
      .posted ∧
    (runCorrelationCycle now0 goodFetch goodGen (.error ()) true).outcome.isFailed
      = false ∧
    (runCorrelationCycle now0 goodFetch goodGen (.error ()) true).trace =
      [.fetching, .generating, .histRead, .dupCheck, .publishing] := by
  exact ⟨by decide, by decide, by decide⟩

/-- Claim C6: a duplicate verdict on the freshly formatted post makes the
cycle end as a skip — the publish stage is never entered; a non-duplicate
verdict (in particular the unconditional `false` on an empty history)
makes the cycle proceed to the publish stage. -/
theorem c6_dup_skip :
    (∀ tweet, isDuplicateAnalysis tweet [] = .ok false) ∧
    (∀ now fO gO br pO (b e : Coin) (tweet : List Char),
      (getCryptoData fO).result = some (b, e) →
      (analyzeMarketSentiment now gO b e).result = some tweet →
      isDuplicateAnalysis tweet (getLastPosts br) = .ok true →
      runCorrelationCycle now fO gO br pO =
        ⟨.skippedDup, [.fetching, .generating, .histRead, .dupCheck]⟩ ∧
      Stage.publishing ∉ (runCorrelationCycle now fO gO br pO).trace) ∧
    (∀ now fO gO br pO (b e : Coin) (tweet : List Char),
      (getCryptoData fO).result = some (b, e) →
      (analyzeMarketSentiment now gO b e).result = some tweet →
      isDuplicateAnalysis tweet (getLastPosts br) = .ok false →
      Stage.publishing ∈ (runCorrelationCycle now fO gO br pO).trace) := by
  refine ⟨?_, ?_, ?_⟩
  · intro tweet
    cases hext : extractPriceData tweet with
    | none => simp [isDuplicateAnalysis, hext]
    | some nd => simp [isDuplicateAnalysis, hext, isDuplicateAux]
  · intro now fO gO br pO b e tweet hf hg hd
    have hrun : runCorrelationCycle now fO gO br pO =
        ⟨.skippedDup, [.fetching, .generating, .histRead, .dupCheck]⟩ := by
      simp [runCorrelationCycle, hf, hg, hd]
    refine ⟨hrun, ?_⟩
    rw [hrun]
    decide
  · intro now fO gO br pO b e tweet hf hg hd
    have hrun : runCorrelationCycle now fO gO br pO =
        (if pO then
          ⟨.posted, [.fetching, .generating, .histRead, .dupCheck, .publishing]⟩
        else
          ⟨.failed .publishing,
            [.fetching, .generating, .histRead, .dupCheck, .publishing]⟩ :
          CycleRun) := by
      simp [runCorrelationCycle, hf, hg, hd]
    rw [hrun]
    cases pO <;> decide

set_option maxRecDepth 8000 in
unseal Rat.add Rat.mul Rat.inv Rat.sub in
/-- Claim C6, witness: the empty history is never a duplicate; a history
equal to the freshly formatted post itself triggers a skip whose trace
never enters publishing; and the spec's end-to-end scenario (BTC 50000,
ETH 3000, no prior history) reaches the publish stage. -/
theorem c6_dup_skip_witness :
    isDuplicateAnalysis ("x".toList) [] = .ok false ∧
    (runCorrelationCycle now0 goodFetch goodGen (.ok [tweet0]) true =
      ⟨.skippedDup, [.fetching, .generating, .histRead, .dupCheck]⟩ ∧
      Stage.publishing ∉
        (runCorrelationCycle now0 goodFetch goodGen (.ok [tweet0]) true).trace) ∧
    Stage.publishing ∈
      (runCorrelationCycle now0 goodFetch goodGen (.ok []) true).trace :=
  ⟨c6_dup_skip.1 ("x".toList),
   c6_dup_skip.2.1 now0 goodFetch goodGen (.ok [tweet0]) true btcC ethC tweet0
      (by decide) (by decide) (by decide),
   c6_dup_skip.2.2 now0 goodFetch goodGen (.ok []) true btcC ethC tweet0
      (by decide) (by decide) (by decide)⟩

end Zoinks
